import Mathlib

/-!
Verification development for the assistant client's realtime audio and chat
pipeline (src/App.tsx and src/unnamed/part_000), covering the transport-safe
codec, the PCM framer, the playback scheduler, the transcript reconciler,
the session lifecycle (start/stop), message routing, and the sendMessage
guard.  Byte buffers are lists of naturals below 256, strings are lists of
characters, clock times and durations are rationals, and machine int16
values are integers reduced modulo 2 ^ 16 into the signed range.
-/

/-! ## Transport-safe codec (base64) -/

/-- Modelled from the spec: the base64 alphabet used by the codec in
utils/audio, which is imported by src/App.tsx but whose source is not under
src/.  Standard base64 character table. -/
def b64Alphabet : List Char :=
  "ABCDEFGHIJKLMNOPQRSTUVWXYZabcdefghijklmnopqrstuvwxyz0123456789+/".toList

/-- Modelled from the spec: the character for a 6-bit group value. -/
def b64Char (n : Nat) : Char := b64Alphabet.getD n 'A'

/-- Modelled from the spec: the 6-bit group value of an alphabet character. -/
def b64Val (c : Char) : Nat := b64Alphabet.indexOf c

/-- Modelled from the spec: `encode(bytes) -> wireText` from utils/audio (not
under src/), with standard base64 semantics: every 3 input bytes become 4
output characters, and a trailing group of 1 or 2 bytes is padded with
one or two `=` characters. -/
def encodeB64 : List Nat → List Char
  | [] => []
  | [b1] => [b64Char (b1 / 4), b64Char (b1 % 4 * 16), '=', '=']
  | [b1, b2] =>
      [b64Char (b1 / 4), b64Char (b1 % 4 * 16 + b2 / 16),
       b64Char (b2 % 16 * 4), '=']
  | b1 :: b2 :: b3 :: rest =>
      b64Char (b1 / 4) :: b64Char (b1 % 4 * 16 + b2 / 16) ::
      b64Char (b2 % 16 * 4 + b3 / 64) :: b64Char (b3 % 64) :: encodeB64 rest

/-- Modelled from the spec: `decode(wireText) -> bytes` from utils/audio (not
under src/), the inverse of `encodeB64`: each 4-character group yields 3
bytes, except a final group padded with `=` which yields 1 or 2 bytes. -/
def decodeB64 : List Char → List Nat
  | c1 :: c2 :: c3 :: c4 :: rest =>
      if c3 = '=' then [b64Val c1 * 4 + b64Val c2 / 16]
      else if c4 = '=' then
        [b64Val c1 * 4 + b64Val c2 / 16, b64Val c2 % 16 * 16 + b64Val c3 / 4]
      else
        (b64Val c1 * 4 + b64Val c2 / 16) ::
        (b64Val c2 % 16 * 16 + b64Val c3 / 4) ::
        (b64Val c3 % 4 * 64 + b64Val c4) :: decodeB64 rest
  | _ => []

theorem b64Val_b64Char : ∀ m, m < 64 → b64Val (b64Char m) = m := by decide

theorem b64Char_ne_pad : ∀ m, m < 64 → b64Char m ≠ '=' := by decide

theorem b64_roundtrip : ∀ b : List Nat, (∀ x ∈ b, x < 256) →
    decodeB64 (encodeB64 b) = b
  | [], _ => rfl
  | [b1], h => by
      have hb1 : b1 < 256 := h b1 (by simp)
      simp only [encodeB64, decodeB64]
      rw [b64Val_b64Char _ (by omega : b1 / 4 < 64),
          b64Val_b64Char _ (by omega : b1 % 4 * 16 < 64)]
      simp
      omega
  | [b1, b2], h => by
      have hb1 : b1 < 256 := h b1 (by simp)
      have hb2 : b2 < 256 := h b2 (by simp)
      simp only [encodeB64, decodeB64]
      rw [if_neg (b64Char_ne_pad _ (by omega))]
      rw [b64Val_b64Char _ (by omega : b1 / 4 < 64),
          b64Val_b64Char _ (by omega : b1 % 4 * 16 + b2 / 16 < 64),
          b64Val_b64Char _ (by omega : b2 % 16 * 4 < 64)]
      simp
      omega
  | [b1, b2, b3], h => by
      have hb1 : b1 < 256 := h b1 (by simp)
      have hb2 : b2 < 256 := h b2 (by simp)
      have hb3 : b3 < 256 := h b3 (by simp)
      simp only [encodeB64, decodeB64]
      rw [if_neg (b64Char_ne_pad _ (by omega)),
          if_neg (b64Char_ne_pad _ (by omega))]
      rw [b64Val_b64Char _ (by omega : b1 / 4 < 64),
          b64Val_b64Char _ (by omega : b1 % 4 * 16 + b2 / 16 < 64),
          b64Val_b64Char _ (by omega : b2 % 16 * 4 + b3 / 64 < 64),
          b64Val_b64Char _ (by omega : b3 % 64 < 64)]
      have e1 : b1 / 4 * 4 + (b1 % 4 * 16 + b2 / 16) / 16 = b1 := by omega
      have e2 : (b1 % 4 * 16 + b2 / 16) % 16 * 16 +
          (b2 % 16 * 4 + b3 / 64) / 4 = b2 := by omega
      have e3 : (b2 % 16 * 4 + b3 / 64) % 4 * 64 + b3 % 64 = b3 := by omega
      simp [decodeB64, e1, e2, e3]
  | b1 :: b2 :: b3 :: r1 :: rest, h => by
      have hb1 : b1 < 256 := h b1 (by simp)
      have hb2 : b2 < 256 := h b2 (by simp)
      have hb3 : b3 < 256 := h b3 (by simp)
      have ih := b64_roundtrip (r1 :: rest) (fun x hx =>
        h x (List.mem_cons_of_mem _ (List.mem_cons_of_mem _
          (List.mem_cons_of_mem _ hx))))
      simp only [encodeB64, decodeB64]
      rw [if_neg (b64Char_ne_pad _ (by omega)),
          if_neg (b64Char_ne_pad _ (by omega))]
      rw [b64Val_b64Char _ (by omega : b1 / 4 < 64),
          b64Val_b64Char _ (by omega : b1 % 4 * 16 + b2 / 16 < 64),
          b64Val_b64Char _ (by omega : b2 % 16 * 4 + b3 / 64 < 64),
          b64Val_b64Char _ (by omega : b3 % 64 < 64)]
      have e1 : b1 / 4 * 4 + (b1 % 4 * 16 + b2 / 16) / 16 = b1 := by omega
      have e2 : (b1 % 4 * 16 + b2 / 16) % 16 * 16 +
          (b2 % 16 * 4 + b3 / 64) / 4 = b2 := by omega
      have e3 : (b2 % 16 * 4 + b3 / 64) % 4 * 64 + b3 % 64 = b3 := by omega
      rw [e1, e2, e3, ih]

theorem encodeB64_length : ∀ b : List Nat,
    (encodeB64 b).length = (b.length + 2) / 3 * 4
  | [] => rfl
  | [_] => by simp [encodeB64]
  | [_, _] => by simp [encodeB64]
  | _ :: _ :: _ :: rest => by
      simp only [encodeB64, List.length_cons, encodeB64_length rest]
      omega

/-! ## PCM framer (onaudioprocess, src/App.tsx lines 172-186) -/

/-- Truncation of a rational toward zero, the JavaScript number-to-integer
conversion step used by ToInt16. -/
def truncQ (q : ℚ) : ℤ := if q < 0 then -Int.floor (-q) else Int.floor q

/-- Reduction of an integer modulo 2 ^ 16 into the signed int16 range
[-32768, 32767], the wrap performed when a number is stored into an
Int16Array element. -/
def wrap16 (n : ℤ) : ℤ := (n + 32768) % 65536 - 32768

/-- The int16 value stored by the assignment int16[i] = inputData[i] * 32768
in the onaudioprocess capture callback (src/App.tsx line 177): the sample is
scaled by 32768, truncated toward zero, and wrapped into int16 range. -/
def toInt16 (s : ℚ) : ℤ := wrap16 (truncQ (s * 32768))

/-- The PCM framer loop of the onaudioprocess callback (src/App.tsx lines
174-178): every floating-point sample of the capture buffer becomes one
int16 element, in order. -/
def pcmFrame : List ℚ → List ℤ
  | [] => []
  | s :: rest => toInt16 s :: pcmFrame rest

/-- The per-sample conversion the spec sentence literally asks for:
round(sample * 32768) (rounding to nearest) then reduced to int16 range. -/
def pcmSpecRound (s : ℚ) : ℤ := wrap16 (round (s * 32768))

/-! ## Keyword routing (hasGroundingKeywords and sendMessage branches,
src/App.tsx lines 10-16 and 65-109) -/

/-- Boolean test that the first list is an initial segment of the second. -/
def leadsList : List Char → List Char → Bool
  | [], _ => true
  | _ :: _, [] => false
  | a :: as, b :: bs => a == b && leadsList as bs

/-- JavaScript String.prototype.includes on character lists: the needle
occurs contiguously somewhere in the haystack. -/
def includesL (hay needle : List Char) : Bool :=
  if leadsList needle hay then true
  else
    match hay with
    | [] => false
    | _ :: t => includesL t needle

/-- JavaScript String.prototype.toLowerCase restricted to ASCII, which covers
every keyword the routing uses. -/
def toLowerL (l : List Char) : List Char := l.map Char.toLower

/-- hasGroundingKeywords from src/App.tsx lines 10-13: lowercase the text and
test whether some keyword occurs in it as a substring. -/
def hasGroundingKeywords (text : List Char) (keywords : List (List Char)) :
    Bool :=
  keywords.any fun keyword => includesL (toLowerL text) keyword

/-- SEARCH_KEYWORDS from src/App.tsx line 15. -/
def searchKeywords : List (List Char) :=
  ["who", "what is", "when", "latest", "news", "search for"].map String.toList

/-- MAPS_KEYWORDS from src/App.tsx line 16. -/
def mapsKeywords : List (List Char) :=
  ["where", "nearby", "directions", "restaurants", "locations", "find"].map
    String.toList

/-- The three backends a message can be routed to in sendMessage. -/
inductive Route
  | maps
  | search
  | chat
deriving DecidableEq

/-- The routing decision of sendMessage (src/App.tsx lines 65-109): the maps
branch is tested first, then the search branch, else plain chat. -/
def classify (text : List Char) : Route :=
  if hasGroundingKeywords text mapsKeywords then Route.maps
  else if hasGroundingKeywords text searchKeywords then Route.search
  else Route.chat

/-! ## Chat state and the sendMessage guard (src/App.tsx lines 48-58) -/

/-- Message roles, from the ChatRole enum in types. -/
inductive MsgRole
  | user
  | ai
  | system
deriving DecidableEq

/-- A transcript record: id, role and text, as in the Message interface. -/
structure ChatMsg where
  id : Nat
  role : MsgRole
  text : List Char
deriving DecidableEq

/-- The ASCII whitespace characters recognised by JavaScript trim that can
occur in typed input. -/
def isWsChar (c : Char) : Bool :=
  c == ' ' || c == '\t' || c == '\n' || c == '\r' ||
  c == '\x0b' || c == '\x0c'

/-- JavaScript String.prototype.trim: drop whitespace from both ends. -/
def trimL (l : List Char) : List Char :=
  ((l.dropWhile isWsChar).reverse.dropWhile isWsChar).reverse

/-- The pieces of React state touched by sendMessage before its first await:
the message list, the text input field and the loading flag. -/
structure ChatState where
  messages : List ChatMsg
  input : List Char
  isLoading : Bool
deriving DecidableEq

/-- The synchronous prefix of sendMessage (src/App.tsx lines 48-58): the
guard returns unchanged when the trimmed text is empty or a send is in
flight; otherwise the loading flag is set, the user message is appended, the
input is cleared and the assistant placeholder is appended.  now stands for
Date.now(). -/
def sendMessage (now : Nat) (messageText : List Char) (st : ChatState) :
    ChatState :=
  if trimL messageText = [] || st.isLoading then st
  else
    { messages := st.messages ++
        [⟨now, MsgRole.user, messageText⟩, ⟨now + 1, MsgRole.ai, []⟩],
      input := [],
      isLoading := true }

/-! ## Session lifecycle (stopListening / startListening,
src/App.tsx lines 121-139 and 142-255) -/

/-- The output AudioContext held by audioContextRef: only its closed flag
matters to the teardown logic. -/
structure AudioCtx where
  closed : Bool
deriving DecidableEq, Fintype

/-- The resource refs and the listening flag owned by the session component:
sessionPromiseRef, mediaStreamRef, scriptProcessorRef, audioContextRef and
isListening.  A Bool ref records whether the ref currently holds a value. -/
structure SessionState where
  sessionPromise : Bool
  mediaStream : Bool
  scriptProcessor : Bool
  audioContext : Option AudioCtx
  isListening : Bool
deriving DecidableEq, Fintype

/-- The state with nothing held: all refs null and not listening. -/
def idleSession : SessionState :=
  { sessionPromise := false, mediaStream := false, scriptProcessor := false,
    audioContext := none, isListening := false }

/-- The external release calls stopListening can make, in source order. -/
inductive TeardownAct
  | closeSession
  | stopTracks
  | disconnectProcessor
  | closeContext
deriving DecidableEq

/-- stopListening from src/App.tsx lines 121-139: each ref is released and
nulled only if it is currently held; the audio context is additionally
skipped (and its ref left in place) when its state is already closed; the
listening flag is cleared.  The returned list records which release calls
were made. -/
def stopListening (st : SessionState) : SessionState × List TeardownAct :=
  let a1 : List TeardownAct :=
    if st.sessionPromise then [TeardownAct.closeSession] else []
  let a2 : List TeardownAct :=
    if st.mediaStream then [TeardownAct.stopTracks] else []
  let a3 : List TeardownAct :=
    if st.scriptProcessor then [TeardownAct.disconnectProcessor] else []
  let ctxStep : Option AudioCtx × List TeardownAct :=
    match st.audioContext with
    | some c =>
        if c.closed then (some c, []) else (none, [TeardownAct.closeContext])
    | none => (none, [])
  (⟨false, false, false, ctxStep.1, false⟩, a1 ++ a2 ++ a3 ++ ctxStep.2)

/-- What a call to startListening can end as, seen synchronously by the
caller.  alreadyActiveError is the rejection the spec postulates; it is in
the type so its absence can be stated. -/
inductive StartOutcome
  | toggledOff
  | started
  | failed
  | alreadyActiveError
deriving DecidableEq

/-- The failure points of the try block of startListening: microphone
acquisition (getUserMedia) and the construction of the output audio
context / live connection that follows it. -/
structure StartEnv where
  micOk : Bool
  connectOk : Bool
deriving DecidableEq

/-- startListening from src/App.tsx lines 142-255.  If the component is
already listening it calls stopListening and returns (the toggle-off
branch, lines 143-146).  Otherwise it runs the try block: a failed
microphone acquisition jumps to the catch block with no ref yet assigned; a
failure after the microphone was acquired (output-context construction or
the synchronous part of connect) jumps to the catch block with
mediaStreamRef already holding the stream.  The catch block (lines 250-254)
clears the listening flag and appends one system message; it does not call
stopListening.  On success the session promise ref is set and the component
is listening.  Returns the new state, the outcome, and the system messages
appended.  now stands for Date.now(). -/
def startListening (env : StartEnv) (now : Nat) (st : SessionState) :
    SessionState × StartOutcome × List ChatMsg :=
  if st.isListening then ((stopListening st).1, StartOutcome.toggledOff, [])
  else if env.micOk = false then
    ({ st with isListening := false },
     StartOutcome.failed,
     [⟨now, MsgRole.system,
       "Could not access microphone. Please check permissions.".toList⟩])
  else if env.connectOk = false then
    ({ st with mediaStream := true, isListening := false },
     StartOutcome.failed,
     [⟨now, MsgRole.system,
       "Could not access microphone. Please check permissions.".toList⟩])
  else
    ({ st with
        mediaStream := true
        isListening := true
        sessionPromise := true },
     StartOutcome.started, [])

/-- The onerror callback of the live session (src/App.tsx lines 234-238): it
appends one system message describing the failure and then calls
stopListening.  errText stands for the message of the received error. -/
def onError (now : Nat) (errText : List Char) (st : SessionState)
    (msgs : List ChatMsg) : SessionState × List ChatMsg :=
  ((stopListening st).1,
   msgs ++ [⟨now, MsgRole.system,
     "Connection error: ".toList ++ errText⟩])

/-! ## Playback scheduler and inbound audio
(onmessage audio branch, src/App.tsx lines 223-232) -/

/-- A decoded audio buffer: its sample count and sample rate determine its
duration, as in the AudioBuffer the code plays. -/
structure AudioBuf where
  sampleCount : Nat
  sampleRate : Nat
deriving DecidableEq

/-- Duration in seconds of a decoded buffer. -/
def AudioBuf.duration (b : AudioBuf) : ℚ :=
  (b.sampleCount : ℚ) / (b.sampleRate : ℚ)

/-- Modelled from the spec: decodeAudioData from utils/audio (not under
src/), per spec section 4.2: raw bytes are read as 16-bit PCM at the given
rate and channel count, sample count = byte length / 2 / channelCount, and a
byte length that is not a whole multiple of 2 * channelCount fails with
MalformedAudioError (returned here as none). -/
def decodeAudioData (bytes : List Nat) (sampleRate channels : Nat) :
    Option AudioBuf :=
  if bytes.length % (2 * channels) = 0 then
    some ⟨bytes.length / 2 / channels, sampleRate⟩
  else none

/-- The error the decode of an inbound chunk can raise. -/
inductive AudioErr
  | malformedAudio
deriving DecidableEq

/-- One scheduled playback entry: its start time, its duration, and the
output-clock reading at the moment it was enqueued. -/
structure SchedEntry where
  start : ℚ
  dur : ℚ
  clockAt : ℚ
deriving DecidableEq

/-- The playback scheduler state: the nextStartTime cursor and the entries
scheduled so far, oldest first. -/
structure PlaybackState where
  nextStartTime : ℚ
  entries : List SchedEntry
deriving DecidableEq

/-- The scheduler state at session start: nextStartTime = 0, nothing
scheduled (src/App.tsx line 156). -/
def initPlayback : PlaybackState := { nextStartTime := 0, entries := [] }

/-- The audio branch of the onmessage callback (src/App.tsx lines 223-232)
for one inbound chunk: first the cursor is clamped up to the current output
clock time, then the chunk is decoded; on success the buffer is scheduled at
the clamped cursor and the cursor advances by its duration; on decode
failure the error propagates out of the callback with nothing scheduled, the
clamped cursor mutation having already happened. -/
def handleAudioChunk (st : PlaybackState) (clock : ℚ) (bytes : List Nat) :
    PlaybackState × Option AudioErr :=
  match decodeAudioData bytes 24000 1 with
  | none =>
      ({ st with nextStartTime := max st.nextStartTime clock },
       some AudioErr.malformedAudio)
  | some buf =>
      ({ nextStartTime := max st.nextStartTime clock + buf.duration,
         entries := st.entries ++
           [⟨max st.nextStartTime clock, buf.duration, clock⟩] }, none)

/-- Runs the scheduler over a sequence of inbound chunks, each tagged with
the output-clock reading at its arrival. -/
def runPlayback (st : PlaybackState) : List (ℚ × List Nat) → PlaybackState
  | [] => st
  | (clock, bytes) :: rest =>
      runPlayback (handleAudioChunk st clock bytes).1 rest

/-- Consecutive scheduled entries do not overlap: each entry ends no later
than the next one starts. -/
def entriesOK : List SchedEntry → Prop
  | [] => True
  | [_] => True
  | e1 :: e2 :: rest => e1.start + e1.dur ≤ e2.start ∧ entriesOK (e2 :: rest)

/-! ## Transcript reconciler (onmessage transcript branches,
src/App.tsx lines 190-221) -/

/-- One inbound live-server message, mirroring the fields the onmessage
callback reads: an optional input-transcription delta, an optional
output-transcription delta, and the turnComplete flag. -/
structure ServerMsg where
  inputTranscription : Option (List Char)
  outputTranscription : Option (List Char)
  turnComplete : Bool

/-- The reconciler state: the two cumulative transcription buffers, the two
open record ids, and the transcript. -/
structure LiveState where
  curInput : List Char
  curOutput : List Char
  userInputId : Option Nat
  aiResponseId : Option Nat
  messages : List ChatMsg
deriving DecidableEq

/-- The reconciler state at session start: empty buffers, no open records
(src/App.tsx lines 153-162), over a given prior transcript. -/
def initLive (msgs : List ChatMsg) : LiveState :=
  { curInput := [], curOutput := [], userInputId := none,
    aiResponseId := none, messages := msgs }

/-- The input-transcription branch (src/App.tsx lines 191-200): append the
delta to the cumulative input buffer; if no user record is open, open one
whose text is the buffer wrapped in emphasis markers; else rewrite the open
record's text to the wrapped buffer. -/
def handleInputDelta (now : Nat) (t : List Char) (st : LiveState) :
    LiveState :=
  let cur := st.curInput ++ t
  match st.userInputId with
  | none =>
      { st with
        curInput := cur
        userInputId := some now
        messages := st.messages ++
          [⟨now, MsgRole.user, '*' :: cur ++ ['*']⟩] }
  | some uid =>
      { st with
        curInput := cur
        messages := st.messages.map fun m =>
          if m.id = uid then { m with text := '*' :: cur ++ ['*'] } else m }

/-- The output-transcription branch (src/App.tsx lines 202-211): symmetric,
with no emphasis marker. -/
def handleOutputDelta (now : Nat) (t : List Char) (st : LiveState) :
    LiveState :=
  let cur := st.curOutput ++ t
  match st.aiResponseId with
  | none =>
      { st with
        curOutput := cur
        aiResponseId := some (now + 1)
        messages := st.messages ++ [⟨now + 1, MsgRole.ai, cur⟩] }
  | some aid =>
      { st with
        curOutput := cur
        messages := st.messages.map fun m =>
          if m.id = aid then { m with text := cur } else m }

/-- The turnComplete branch (src/App.tsx lines 213-221): the open user
record's text is replaced by the cumulative input buffer (no markers), then
both buffers are cleared and both record ids reset to none. -/
def handleTurnComplete (st : LiveState) : LiveState :=
  let msgs := st.messages.map fun m =>
    if st.userInputId = some m.id then { m with text := st.curInput } else m
  { curInput := [], curOutput := [], userInputId := none,
    aiResponseId := none, messages := msgs }

/-- The transcript-handling part of the onmessage callback (src/App.tsx
lines 190-221): the three branches run in source order on the fields present
in the message. -/
def handleTranscriptMsg (now : Nat) (msg : ServerMsg) (st : LiveState) :
    LiveState :=
  let st1 := match msg.inputTranscription with
    | some t => handleInputDelta now t st
    | none => st
  let st2 := match msg.outputTranscription with
    | some t => handleOutputDelta now t st1
    | none => st1
  if msg.turnComplete then handleTurnComplete st2 else st2

/-- Runs the reconciler over a sequence of inbound messages, each tagged
with the Date.now() reading at its arrival. -/
def runTranscript (st : LiveState) : List (Nat × ServerMsg) → LiveState
  | [] => st
  | (now, msg) :: rest => runTranscript (handleTranscriptMsg now msg st) rest

/-! ## Helper lemmas -/

theorem AudioBuf.duration_nonneg (b : AudioBuf) : 0 ≤ b.duration :=
  div_nonneg (Nat.cast_nonneg _) (Nat.cast_nonneg _)

theorem entriesOK_append : ∀ (l : List SchedEntry) (e : SchedEntry),
    entriesOK l → (∀ x ∈ l, x.start + x.dur ≤ e.start) →
    entriesOK (l ++ [e])
  | [], e, _, _ => trivial
  | [a], e, _, h => ⟨h a (by simp), trivial⟩
  | a :: b :: r, e, hl, h =>
      ⟨hl.1, entriesOK_append (b :: r) e hl.2
        (fun x hx => h x (List.mem_cons_of_mem _ hx))⟩

/-- Invariant maintained by the playback scheduler: entries do not overlap,
no entry starts before the clock reading at its enqueue, and every entry
ends no later than the cursor. -/
def PlaybackInv (st : PlaybackState) : Prop :=
  entriesOK st.entries ∧ (∀ e ∈ st.entries, e.clockAt ≤ e.start) ∧
  ∀ e ∈ st.entries, e.start + e.dur ≤ st.nextStartTime

theorem handleAudioChunk_mono (st : PlaybackState) (clock : ℚ)
    (bytes : List Nat) :
    st.nextStartTime ≤ (handleAudioChunk st clock bytes).1.nextStartTime := by
  cases hd : decodeAudioData bytes 24000 1 with
  | none =>
      simp only [handleAudioChunk, hd]
      exact le_max_left _ _
  | some buf =>
      simp only [handleAudioChunk, hd]
      have h0 := buf.duration_nonneg
      have h1 : st.nextStartTime ≤ max st.nextStartTime clock :=
        le_max_left _ _
      show st.nextStartTime ≤ max st.nextStartTime clock + buf.duration
      linarith

theorem handleAudioChunk_inv (st : PlaybackState) (clock : ℚ)
    (bytes : List Nat) (h : PlaybackInv st) :
    PlaybackInv (handleAudioChunk st clock bytes).1 := by
  obtain ⟨h1, h2, h3⟩ := h
  cases hd : decodeAudioData bytes 24000 1 with
  | none =>
      simp only [handleAudioChunk, hd]
      exact ⟨h1, h2, fun e he => le_trans (h3 e he) (le_max_left _ _)⟩
  | some buf =>
      simp only [handleAudioChunk, hd]
      have hd0 : 0 ≤ buf.duration := buf.duration_nonneg
      refine ⟨?_, ?_, ?_⟩
      · exact entriesOK_append _ _ h1
          (fun x hx => le_trans (h3 x hx) (le_max_left _ _))
      · intro e he
        rcases List.mem_append.mp he with hin | hin
        · exact h2 e hin
        · have he2 : e = ⟨max st.nextStartTime clock, buf.duration, clock⟩ :=
            by simpa using hin
          subst he2
          exact le_max_right _ _
      · intro e he
        rcases List.mem_append.mp he with hin | hin
        · have hx := h3 e hin
          have hm : st.nextStartTime ≤ max st.nextStartTime clock :=
            le_max_left _ _
          show e.start + e.dur ≤ max st.nextStartTime clock + buf.duration
          linarith
        · have he2 : e = ⟨max st.nextStartTime clock, buf.duration, clock⟩ :=
            by simpa using hin
          subst he2
          show max st.nextStartTime clock + buf.duration ≤
            max st.nextStartTime clock + buf.duration
          exact le_refl _

theorem runPlayback_mono : ∀ (chunks : List (ℚ × List Nat))
    (st : PlaybackState),
    st.nextStartTime ≤ (runPlayback st chunks).nextStartTime
  | [], _ => le_refl _
  | (clock, bytes) :: rest, st => by
      have hstep := handleAudioChunk_mono st clock bytes
      have ih := runPlayback_mono rest (handleAudioChunk st clock bytes).1
      simp only [runPlayback]
      exact le_trans hstep ih

theorem runPlayback_inv : ∀ (chunks : List (ℚ × List Nat))
    (st : PlaybackState),
    PlaybackInv st → PlaybackInv (runPlayback st chunks)
  | [], _, h => h
  | (clock, bytes) :: rest, st, h => by
      simp only [runPlayback]
      exact runPlayback_inv rest _ (handleAudioChunk_inv st clock bytes h)

theorem initPlayback_inv : PlaybackInv initPlayback := by
  refine ⟨trivial, ?_, ?_⟩ <;> intro e he <;> simp [initPlayback] at he

theorem pcmFrame_spec : ∀ samples : List ℚ,
    (pcmFrame samples).length = samples.length ∧
    ∀ i : Nat, (pcmFrame samples).getD i 0 =
      wrap16 (truncQ (samples.getD i 0 * 32768)) := by
  intro samples
  induction samples with
  | nil =>
      refine ⟨rfl, fun i => ?_⟩
      simp only [pcmFrame, List.getD_nil]
      have h : truncQ ((0 : ℚ) * 32768) = 0 := by
        unfold truncQ
        norm_num
      rw [h]
      decide
  | cons s rest ih =>
      refine ⟨by simp [pcmFrame, ih.1], fun i => ?_⟩
      cases i with
      | zero => simp [pcmFrame, toInt16]
      | succ j =>
          simp only [pcmFrame, List.getD_cons_succ]
          exact ih.2 j

theorem trimL_eq_nil (text : List Char)
    (h : ∀ c ∈ text, isWsChar c = true) : trimL text = [] := by
  unfold trimL
  have h1 : text.dropWhile isWsChar = [] := by
    rw [List.dropWhile_eq_nil_iff]
    exact h
  rw [h1]
  rfl

/-- A session state in which everything is held and a live (not closed)
output audio context exists. -/
def listeningState : SessionState :=
  { sessionPromise := true, mediaStream := true, scriptProcessor := true,
    audioContext := some ⟨false⟩, isListening := true }

/-! ## Claim theorems -/

/-- C1: along any sequence of inbound audio chunks, the scheduled entries
never overlap (each entry ends no later than the next one starts), no entry
starts before the output-clock reading at its enqueue, the start of every
successfully decoded chunk is exactly max(nextStartTime, clock), and the
nextStartTime cursor is monotonically non-decreasing over any run. -/
theorem c1_scheduler_invariants :
    (∀ chunks, entriesOK (runPlayback initPlayback chunks).entries ∧
      ∀ e ∈ (runPlayback initPlayback chunks).entries, e.clockAt ≤ e.start) ∧
    (∀ (st : PlaybackState) (clock : ℚ) (bytes : List Nat) (buf : AudioBuf),
      decodeAudioData bytes 24000 1 = some buf →
      (handleAudioChunk st clock bytes).1.entries = st.entries ++
        [⟨max st.nextStartTime clock, buf.duration, clock⟩]) ∧
    ∀ (st : PlaybackState) chunks,
      st.nextStartTime ≤ (runPlayback st chunks).nextStartTime := by
  refine ⟨fun chunks => ?_, fun st clock bytes buf hd => ?_,
    fun st chunks => runPlayback_mono chunks st⟩
  · have h := runPlayback_inv chunks initPlayback initPlayback_inv
    exact ⟨h.1, h.2.1⟩
  · simp only [handleAudioChunk, hd]

theorem c1_scheduler_invariants_witness :
    entriesOK (runPlayback initPlayback [((1 : ℚ), [0, 0])]).entries ∧
    (⟨1, 1/24000, 1⟩ : SchedEntry).clockAt ≤
      (⟨1, 1/24000, 1⟩ : SchedEntry).start := by
  have hrun : (runPlayback initPlayback [((1 : ℚ), [0, 0])]).entries =
      [⟨1, 1/24000, 1⟩] := by
    simp [runPlayback, handleAudioChunk, decodeAudioData, initPlayback,
      AudioBuf.duration]
  exact ⟨(c1_scheduler_invariants.1 [((1 : ℚ), [0, 0])]).1,
    (c1_scheduler_invariants.1 [((1 : ℚ), [0, 0])]).2 ⟨1, 1/24000, 1⟩
      (by rw [hrun]; exact List.mem_singleton.mpr rfl)⟩

/-- C2 counterexample: the claim says each stored element is
round(sample * 32768); at sample 3/65536 the scaled value is 3/2, whose
nearest-integer rounding is 2, but the code stores its truncation 1. -/
theorem c2_pcm_round_counterexample :
    pcmFrame [(3 : ℚ)/65536] ≠ [pcmSpecRound ((3 : ℚ)/65536)] := by
  have hs : ((3 : ℚ)/65536) * 32768 = 3/2 := by norm_num
  have h1 : toInt16 ((3 : ℚ)/65536) = 1 := by
    unfold toInt16
    rw [hs]
    have h2 : truncQ ((3 : ℚ)/2) = 1 := by
      unfold truncQ
      norm_num
    rw [h2]
    decide
  have h3 : pcmSpecRound ((3 : ℚ)/65536) = 2 := by
    unfold pcmSpecRound
    rw [hs]
    have h4 : round ((3 : ℚ)/2) = 2 := by norm_num [round_eq]
    rw [h4]
    decide
  simp [pcmFrame, h1, h3]

/-- C2 (amended): the frame has the length of the sample buffer, each
element is the sample scaled by 32768, truncated toward zero and wrapped to
int16 range (not rounded to nearest), and out-of-range input wraps rather
than clamps: sample 1.0 stores -32768. -/
theorem c2_pcm_frame (samples : List ℚ) :
    (pcmFrame samples).length = samples.length ∧
    (∀ i : Nat, (pcmFrame samples).getD i 0 =
      wrap16 (truncQ (samples.getD i 0 * 32768))) ∧
    pcmFrame [(1 : ℚ)] = [-32768] := by
  refine ⟨(pcmFrame_spec samples).1, (pcmFrame_spec samples).2, ?_⟩
  have h1 : toInt16 (1 : ℚ) = -32768 := by
    unfold toInt16
    have h : ((1 : ℚ)) * 32768 = 32768 := by norm_num
    rw [h]
    have h2 : truncQ ((32768 : ℚ)) = 32768 := by
      unfold truncQ
      norm_num
    rw [h2]
    decide
  simp [pcmFrame, h1]

/-- C3: the codec round-trips every byte buffer, decode(encode(b)) = b, and
encode maps every 3 input bytes to 4 output characters (with padding). -/
theorem c3_codec_roundtrip (b : List Nat) (h : ∀ x ∈ b, x < 256) :
    decodeB64 (encodeB64 b) = b ∧
    (encodeB64 b).length = (b.length + 2) / 3 * 4 :=
  ⟨b64_roundtrip b h, encodeB64_length b⟩

theorem c3_codec_roundtrip_witness :
    decodeB64 (encodeB64 [77, 97, 110, 255]) = [77, 97, 110, 255] ∧
    (encodeB64 [77, 97, 110, 255]).length =
      ([77, 97, 110, 255].length + 2) / 3 * 4 :=
  c3_codec_roundtrip [77, 97, 110, 255] (by decide)

/-- C4: the delta sequence Hel, lo followed by TurnComplete yields exactly
one finalized user record with text Hello and no emphasis marker, with
buffers and record handles reset; and in general the turnComplete branch
replaces the open user record's text with the cumulative input text and
resets both buffers and both record handles. -/
theorem c4_reconciler_turncomplete :
    ((runTranscript (initLive [])
        [(100, ⟨some "Hel".toList, none, false⟩),
         (105, ⟨some "lo".toList, none, false⟩),
         (110, ⟨none, none, true⟩)]).messages =
      [⟨100, MsgRole.user, "Hello".toList⟩] ∧
     (runTranscript (initLive [])
        [(100, ⟨some "Hel".toList, none, false⟩),
         (105, ⟨some "lo".toList, none, false⟩),
         (110, ⟨none, none, true⟩)]).messages.all
        (fun m => !(m.text.contains '*')) = true ∧
     (runTranscript (initLive [])
        [(100, ⟨some "Hel".toList, none, false⟩),
         (105, ⟨some "lo".toList, none, false⟩),
         (110, ⟨none, none, true⟩)]) =
       initLive [⟨100, MsgRole.user, "Hello".toList⟩]) ∧
    ∀ (now : Nat) (st : LiveState),
      handleTranscriptMsg now ⟨none, none, true⟩ st =
        { curInput := [], curOutput := [], userInputId := none,
          aiResponseId := none,
          messages := st.messages.map fun m =>
            if st.userInputId = some m.id then { m with text := st.curInput }
            else m } := by
  refine ⟨⟨by decide, by decide, by decide⟩, ?_⟩
  intro now st
  simp [handleTranscriptMsg, handleTurnComplete]

/-- C5 counterexample: on a malformed (odd-length) chunk the decode error is
raised, but the playback cursor is not left unchanged: the code clamps the
cursor to the output clock before decoding, so from cursor 0 and clock 1 the
cursor ends at 1. -/
theorem c5_cursor_counterexample :
    (handleAudioChunk initPlayback 1 [0]).2 = some AudioErr.malformedAudio ∧
    (handleAudioChunk initPlayback 1 [0]).1.nextStartTime = 1 ∧
    initPlayback.nextStartTime = 0 := by
  have hd : decodeAudioData [0] 24000 1 = none := by
    simp [decodeAudioData]
  refine ⟨?_, ?_, rfl⟩ <;> simp [handleAudioChunk, hd, initPlayback]

/-- C5 (amended): an inbound chunk of odd byte length raises
MalformedAudioError and is dropped (nothing is scheduled, so the session's
playback continues unaffected); the cursor does not gain any duration but is
first clamped up to the current output-clock time, ending at
max(nextStartTime, clock) rather than necessarily unchanged. -/
theorem c5_malformed_chunk (st : PlaybackState) (clock : ℚ)
    (bytes : List Nat) (h : bytes.length % 2 = 1) :
    (handleAudioChunk st clock bytes).2 = some AudioErr.malformedAudio ∧
    (handleAudioChunk st clock bytes).1.entries = st.entries ∧
    (handleAudioChunk st clock bytes).1.nextStartTime =
      max st.nextStartTime clock := by
  have hne : ¬ (bytes.length % (2 * 1) = 0) := by omega
  have hd : decodeAudioData bytes 24000 1 = none := by
    simp [decodeAudioData, hne]
  refine ⟨?_, ?_, ?_⟩ <;> simp [handleAudioChunk, hd]

theorem c5_malformed_chunk_witness :
    (handleAudioChunk initPlayback 1 [0]).2 = some AudioErr.malformedAudio ∧
    (handleAudioChunk initPlayback 1 [0]).1.entries = [] ∧
    (handleAudioChunk initPlayback 1 [0]).1.nextStartTime = max 0 1 :=
  c5_malformed_chunk initPlayback 1 [0] rfl

/-- C6: stopListening is idempotent: a second invocation leaves the state of
the first unchanged and performs no release action; invoking it on the idle
(never started / already closed) state is a no-op; and from any state whose
audio context is not already closed it ends in the fully released idle
state. -/
theorem c6_stop_idempotent :
    (∀ st : SessionState,
      (stopListening (stopListening st).1).1 = (stopListening st).1 ∧
      (stopListening (stopListening st).1).2 = []) ∧
    stopListening idleSession = (idleSession, []) ∧
    ∀ st : SessionState,
      (∀ c : AudioCtx, st.audioContext = some c → c.closed = false) →
      (stopListening st).1 = idleSession := by decide

theorem c6_stop_idempotent_witness :
    (stopListening listeningState).1 = idleSession :=
  c6_stop_idempotent.2.2 listeningState (by decide)

/-- C7 counterexample: a second start() while the session is active is not
rejected with AlreadyActiveError: the component itself performs the
toggle-off, returning the stop teardown outcome with no error. -/
theorem c7_reentrancy_counterexample :
    (startListening ⟨true, true⟩ 0 listeningState).2.1 =
      StartOutcome.toggledOff ∧
    StartOutcome.toggledOff ≠ StartOutcome.alreadyActiveError := by decide

/-- C7 (amended): calling start() while the component is already listening
is handled by the component itself as toggle-off: it synchronously runs the
stopListening teardown and returns, raising no error; no call of start()
ever produces AlreadyActiveError. -/
theorem c7_reentrancy_toggle (env : StartEnv) (now : Nat)
    (st : SessionState) :
    (st.isListening = true →
      startListening env now st =
        ((stopListening st).1, StartOutcome.toggledOff, [])) ∧
    (startListening env now st).2.1 ≠ StartOutcome.alreadyActiveError := by
  constructor
  · intro h
    simp [startListening, h]
  · rcases env with ⟨mic, con⟩
    cases h : st.isListening <;> cases mic <;> cases con <;>
      simp [startListening, h]

theorem c7_reentrancy_toggle_witness :
    startListening ⟨true, true⟩ 0 listeningState =
      ((stopListening listeningState).1, StartOutcome.toggledOff, []) :=
  (c7_reentrancy_toggle ⟨true, true⟩ 0 listeningState).1 rfl

/-- C8 counterexample: a device-path failure after the microphone was
acquired (mic ok, connection/context construction fails) does not go through
the stop teardown: the resulting state still holds the media stream, while
applying stopListening to that state releases it. -/
theorem c8_device_error_counterexample :
    (startListening ⟨true, false⟩ 0 idleSession).2.1 = StartOutcome.failed ∧
    (startListening ⟨true, false⟩ 0 idleSession).1.mediaStream = true ∧
    (stopListening
      (startListening ⟨true, false⟩ 0 idleSession).1).1.mediaStream =
      false := by decide

/-- C8 (amended): channel errors terminate the session through the same
stopListening teardown as explicit stop() and append exactly one
system-role message; device/startup errors also append exactly one
system-role message and clear the listening flag, but they do not run the
stop teardown — a failure after microphone acquisition leaves the
media-stream reference held. -/
theorem c8_error_teardown (now : Nat) (errText : List Char)
    (st : SessionState) (msgs : List ChatMsg) :
    ((onError now errText st msgs).1 = (stopListening st).1 ∧
     (onError now errText st msgs).2 =
       msgs ++ [⟨now, MsgRole.system,
         "Connection error: ".toList ++ errText⟩]) ∧
    (∀ env : StartEnv, st.isListening = false → env.micOk = false →
      startListening env now st =
        ({ st with isListening := false }, StartOutcome.failed,
         [⟨now, MsgRole.system,
           "Could not access microphone. Please check permissions.".toList⟩])) ∧
    (st.isListening = false →
      startListening ⟨true, false⟩ now st =
        ({ st with mediaStream := true, isListening := false },
         StartOutcome.failed,
         [⟨now, MsgRole.system,
           "Could not access microphone. Please check permissions.".toList⟩])) := by
  refine ⟨⟨rfl, rfl⟩, ?_, ?_⟩
  · intro env h1 h2
    rcases env with ⟨mic, con⟩
    simp only at h2
    subst h2
    simp [startListening, h1]
  · intro h1
    simp [startListening, h1]

theorem c8_error_teardown_witness :
    startListening ⟨false, true⟩ 7 idleSession =
      ({ idleSession with isListening := false }, StartOutcome.failed,
       [⟨7, MsgRole.system,
         "Could not access microphone. Please check permissions.".toList⟩]) :=
  (c8_error_teardown 7 [] idleSession []).2.1 ⟨false, true⟩ rfl rfl

/-- C9: routing is a deterministic function of the text with maps taking
precedence over search: any maps keyword (case-insensitive substring) routes
to maps even when a search keyword is also present; search is used exactly
when no maps keyword but some search keyword matches; otherwise plain chat.
Substring matching means keywords match inside larger words. -/
theorem c9_routing (text : List Char) :
    (hasGroundingKeywords text mapsKeywords = true →
      classify text = Route.maps) ∧
    (classify text = Route.search ↔
      hasGroundingKeywords text mapsKeywords = false ∧
      hasGroundingKeywords text searchKeywords = true) ∧
    (classify text = Route.chat ↔
      hasGroundingKeywords text mapsKeywords = false ∧
      hasGroundingKeywords text searchKeywords = false) ∧
    classify ("Searching nowhere for the latest news".toList) = Route.maps ∧
    classify ("finder".toList) = Route.maps ∧
    classify ("what is new".toList) = Route.search := by
  refine ⟨?_, ?_, ?_, by decide, by decide, by decide⟩ <;>
    cases hm : hasGroundingKeywords text mapsKeywords <;>
    cases hs : hasGroundingKeywords text searchKeywords <;>
    simp [classify, hm, hs]

theorem c9_routing_witness :
    classify ("where is lunch".toList) = Route.maps :=
  (c9_routing ("where is lunch".toList)).1 (by decide)

/-- C10: sendMessage leaves the message list, the input field and the
loading flag unchanged when the text is empty or whitespace-only, or when a
previous send is still in flight. -/
theorem c10_send_guard (now : Nat) (text : List Char) (st : ChatState) :
    ((∀ c ∈ text, isWsChar c = true) → sendMessage now text st = st) ∧
    (st.isLoading = true → sendMessage now text st = st) := by
  constructor
  · intro h
    simp [sendMessage, trimL_eq_nil text h]
  · intro h
    simp [sendMessage, h]

theorem c10_send_guard_witness :
    sendMessage 5 "  ".toList ⟨[], [], false⟩ = ⟨[], [], false⟩ :=
  (c10_send_guard 5 "  ".toList ⟨[], [], false⟩).1 (by decide)
